import Mathlib

/-!
Verification development for the vibe-coding backend (FastAPI + SQLAlchemy).

The Python sources are embedded shallowly:

* `sanitize_prompt_text` (app/services/prompt.py) — the two regex passes
  `re.sub(r'\s+', ' ', text).strip()` and removal of the characters
  `< > [ ] \ ^ ~` and the two braces are modelled over `List Char`
  (`collapseWs`, `pyStrip`, `isForbidden`).
* the pydantic schemas (app/schemas/prompt.py) — `validate_vibe_text`,
  `parsePromptCreate`, `parsePromptUpdate`.  A pydantic `PromptUpdate` field
  is `Option (Option String)`: the outer layer is "explicitly set or not"
  (`model_dump(exclude_unset=True)`), the inner layer is an explicit `null`.
* the prompt service (app/services/prompt.py) — `validate_project_ownership`,
  `get_prompt`, `create_prompt`, `update_prompt`, `delete_prompt`,
  `create_prompt_version`, `create_share_link`, `get_shared_prompt`,
  over an explicit relational state `DB`.
* the routers (app/routers/prompts.py, app/routers/share.py) —
  `process_prompt`, `get_shared_prompt_route`, `api_update_prompt`.
* the payments service (app/services/payments.py) — `process_webhook_event`
  and its handlers.

Database rows are records; `id` columns are `Nat` (internally the code uses
UUIDs, only equality of ids matters to the verified properties); timestamps
are `Nat`.  `HTTPError` mirrors `fastapi.HTTPException` (status code and
detail).  Raising before any write leaves the session unchanged, and a
failure inside a transaction rolls it back, so every mutating operation
returns the resulting `DB` explicitly, equal to its input on error paths.
-/

namespace VibeBackend

/-! ## Python-style text primitives -/

/-- Python `\s` on the ASCII range: the whitespace class used by
`re.sub(r'\s+', ' ', text)` and `str.strip()`. -/
def isPySpace (c : Char) : Bool :=
  c == ' ' || c == '\t' || c == '\n' || c == '\r' || c == '\x0b' || c == '\x0c'

/-- The characters removed by `re.sub(r'[<>{}\[\]\\^~]', '', sanitized)`
(the two braces are written as their codes). -/
def forbiddenChars : List Char :=
  ['<', '>', '\x7b', '\x7d', '[', ']', '\\', '^', '~']

def isForbidden (c : Char) : Bool := forbiddenChars.contains c

/-- One pass of `re.sub(r'\s+', ' ', ·)`: every maximal run of whitespace
becomes a single space.  The flag records whether we are inside a run. -/
def collapseWs : List Char → Bool → List Char
  | [], _ => []
  | c :: cs, inRun =>
    if isPySpace c then
      if inRun then collapseWs cs true
      else ' ' :: collapseWs cs true
    else c :: collapseWs cs false

def stripFront (l : List Char) : List Char := l.dropWhile isPySpace

def stripBack (l : List Char) : List Char := (l.reverse.dropWhile isPySpace).reverse

/-- Python `str.strip()`. -/
def pyStrip (l : List Char) : List Char := stripBack (stripFront l)

def pyStripStr (s : String) : String := ⟨pyStrip s.data⟩

/-- `sanitize_prompt_text` (app/services/prompt.py, lines 67-85):
`if not text: return ""`, collapse whitespace runs, strip the ends, then
delete the forbidden characters. -/
def sanitize_prompt_text (text : String) : String :=
  if text = "" then ""
  else ⟨(pyStrip (collapseWs text.data false)).filter (fun c => !isForbidden c)⟩

/-- Does `needle` occur at the head of `hay`? -/
def matchesAt : List Char → List Char → Bool
  | [], _ => true
  | _ :: _, [] => false
  | a :: as, b :: bs => a == b && matchesAt as bs

/-- Python `needle in hay` on strings (substring test). -/
def containsSub (needle : List Char) : List Char → Bool
  | [] => needle.isEmpty
  | b :: bs => matchesAt needle (b :: bs) || containsSub needle bs

def toLowerStr (s : String) : String := ⟨s.data.map Char.toLower⟩

/-! ## Pydantic schemas (app/schemas/prompt.py) -/

/-- The keyword list of `validate_vibe_coding_style`. -/
def vibeKeywords : List String := ["vibe", "coding", "desarrollo", "proyecto", "feature"]

/-- `any(keyword in text_lower for keyword in vibe_coding_keywords)`. -/
def hasVibeKeyword (v : String) : Bool :=
  vibeKeywords.any (fun kw => containsSub kw.data (toLowerStr v).data)

/-- `re.search(r'[<>{}\[\]\\^~]', v)` as a Bool. -/
def hasForbiddenChar (v : String) : Bool := v.data.any isForbidden

/-- The validation run on a non-null incoming `prompt_text`: the field
constraint `min_length=10`, then the custom validator (strip-length,
keyword, forbidden characters), returning `v.strip()`.  The bodies of
`PromptBase.validate_vibe_coding_style` and
`PromptUpdate.validate_prompt_text_update` are identical. -/
def validate_vibe_text (v : String) : Except String String :=
  if v.length < 10 then
    Except.error "ensure this value has at least 10 characters"
  else if (pyStrip v.data).length < 10 then
    Except.error "El prompt debe tener al menos 10 caracteres"
  else if !hasVibeKeyword v then
    Except.error "El prompt debe contener al menos una palabra clave de Vibe Coding"
  else if hasForbiddenChar v then
    Except.error "El prompt contiene caracteres no permitidos"
  else
    Except.ok (pyStripStr v)

def validPromptTypes : List String := ["feature", "bug", "improvement", "documentation"]

def validStatusValues : List String := ["pending", "processing", "completed", "failed"]

/-- A pydantic `regex=` constraint on an `Optional[str]` field of an update
payload: applied only when the field is set to a non-null value. -/
def regexOk (allowed : List String) : Option (Option String) → Bool
  | some (some s) => allowed.contains s
  | _ => true

/-- `PromptUpdate`: all fields optional; the outer `Option` is
"present in `model_dump(exclude_unset=True)`", the inner one an explicit
JSON null. -/
structure PromptUpdate where
  prompt_text : Option (Option String) := none
  generated_content : Option (Option String) := none
  prompt_type : Option (Option String) := none
  status : Option (Option String) := none
deriving DecidableEq

/-- `PromptCreate`: `prompt_text` is required, `prompt_type` optional. -/
structure PromptCreate where
  prompt_text : String
  prompt_type : Option String := none
  project_id : Nat
deriving DecidableEq

/-- Pydantic validation of a `PromptCreate` payload. -/
def parsePromptCreate (raw : PromptCreate) : Except String PromptCreate :=
  if !(match raw.prompt_type with
       | some t => validPromptTypes.contains t
       | none => true) then
    Except.error "string does not match regex (prompt_type)"
  else
    match validate_vibe_text raw.prompt_text with
    | Except.error e => Except.error e
    | Except.ok s => Except.ok { raw with prompt_text := s }

/-- Pydantic validation of a `PromptUpdate` payload.  An explicit null in
any field passes (pydantic skips constraints and the custom validator
returns `v` unchanged when `v is None`). -/
def parsePromptUpdate (raw : PromptUpdate) : Except String PromptUpdate :=
  if !regexOk validPromptTypes raw.prompt_type then
    Except.error "string does not match regex (prompt_type)"
  else if !regexOk validStatusValues raw.status then
    Except.error "string does not match regex (status)"
  else
    match raw.prompt_text with
    | some (some s) =>
      (match validate_vibe_text s with
       | Except.error e => Except.error e
       | Except.ok r => Except.ok { raw with prompt_text := some (some r) })
    | _ => Except.ok raw

/-! ## Relational state (app/models) -/

/-- A `projects` row restricted to the columns the verified operations
read: primary key and owner (app/models/project.py). -/
structure ProjectRec where
  id : Nat
  user_id : Nat
deriving DecidableEq

/-- A `prompts` row (app/models/prompt.py).  `prompt_text` is
`nullable=False`; `generated_content`, `generated_at` and `prompt_type` are
nullable; `status` is declared `Column(String(50), default="pending")` with
no `nullable=False`, hence nullable — it is therefore an `Option String`
defaulting to `some "pending"`.  models/prompt.py declares NO `share_token`
column. -/
structure PromptRec where
  id : Nat
  project_id : Nat
  user_id : Nat
  prompt_text : String
  generated_content : Option String := none
  generated_at : Option Nat := none
  prompt_type : Option String := none
  status : Option String := some "pending"
deriving DecidableEq

/-- A `prompt_versions` row (app/models/prompt_version.py). -/
structure VersionRec where
  prompt_id : Nat
  version_number : Nat
  prompt_text : String
  generated_content : Option String := none
deriving DecidableEq

/-- Modelled from the spec: `app/models/user.py` is referenced throughout
(imported by the payments service and routers) but the file is not among
the sources; per the spec a User carries an identity and a premium flag
mutated only by billing events.  Ids are the strings the payment code
compares against. -/
structure UserRec where
  id : String
  is_premium : Bool := false
deriving DecidableEq

/-- The relational store: users, projects, prompts, prompt_versions. -/
structure DB where
  users : List UserRec := []
  projects : List ProjectRec := []
  prompts : List PromptRec := []
  versions : List VersionRec := []
deriving DecidableEq

/-- `fastapi.HTTPException`: status code plus detail string. -/
structure HTTPError where
  code : Nat
  detail : String
deriving DecidableEq

/-! ## Prompt service (app/services/prompt.py) -/

/-- `select(Project).where(Project.id == project_id)` + `.first()`. -/
def findProject (db : DB) (project_id : Nat) : Option ProjectRec :=
  db.projects.find? (fun pr => pr.id == project_id)

/-- `select(Prompt).where(Prompt.id == prompt_id)` + `.first()`. -/
def findPrompt (db : DB) (prompt_id : Nat) : Option PromptRec :=
  db.prompts.find? (fun p => p.id == prompt_id)

/-- `validate_project_ownership` (lines 19-64): 404 if the project is
absent, 403 if the acting user is not its owner. -/
def validate_project_ownership (db : DB) (project_id user_id : Nat) :
    Except HTTPError ProjectRec :=
  match findProject db project_id with
  | none => Except.error ⟨404, "Project not found"⟩
  | some project =>
    if project.user_id != user_id then Except.error ⟨403, "Not enough permissions"⟩
    else Except.ok project

/-- `get_prompt` (lines 130-171): load the prompt (404 if absent), then
re-validate ownership through its parent project. -/
def get_prompt (db : DB) (prompt_id user_id : Nat) : Except HTTPError PromptRec :=
  match findPrompt db prompt_id with
  | none => Except.error ⟨404, "Prompt not found"⟩
  | some prompt =>
    match validate_project_ownership db prompt.project_id user_id with
    | Except.error e => Except.error e
    | Except.ok _ => Except.ok prompt

/-- The `select(PromptVersion.version_number) ... order_by(desc).limit(1)`
query followed by `(max_version or 0)`: the maximum existing version number
for the prompt, 0 when there is none. -/
def maxVersionNumber (db : DB) (prompt_id : Nat) : Nat :=
  ((db.versions.filter (fun v => v.prompt_id == prompt_id)).map
     VersionRec.version_number).foldl Nat.max 0

/-- `create_prompt_version` (lines 391-438): insert a row numbered
`(max_version or 0) + 1` (its own transaction, committed immediately). -/
def create_prompt_version (db : DB) (prompt_id : Nat) (prompt_text : String)
    (generated_content : Option String) : VersionRec × DB :=
  let next_version := maxVersionNumber db prompt_id + 1
  let v : VersionRec := ⟨prompt_id, next_version, prompt_text, generated_content⟩
  (v, { db with versions := db.versions ++ [v] })

/-- Python truthiness of an `Optional[str]`: non-null and non-empty. -/
def optTruthy : Option String → Bool
  | some s => !(s == "")
  | none => false

/-- Truthiness of `update_data["f"]` guarded by `"f" in update_data`. -/
def setTruthy : Option (Option String) → Bool
  | some (some s) => !(s == "")
  | _ => false

/-- The `.values(**update_data)` write of `update_prompt`: each field that
is present in the dump overwrites the column (an explicit null clears a
nullable column); `generated_at` is stamped when it was added to the
dump. -/
def applyPromptUpdate (prompt_in : PromptUpdate) (ptext : Option (Option String))
    (genAt : Option Nat) (p : PromptRec) : PromptRec :=
  let p1 := match ptext with
            | some (some s) => { p with prompt_text := s }
            | _ => p
  let p2 := match prompt_in.generated_content with
            | some g => { p1 with generated_content := g }
            | none => p1
  let p3 := match prompt_in.prompt_type with
            | some t => { p2 with prompt_type := t }
            | none => p2
  let p4 := match prompt_in.status with
            | some st => { p3 with status := st }
            | none => p3
  match genAt with
  | some t => { p4 with generated_at := some t }
  | none => p4

/-- `update_prompt` (lines 208-281).  Mirrors the source step by step:
authorize via `get_prompt`; capture the pre-update `prompt_text` /
`generated_content`; sanitize a present-and-truthy incoming `prompt_text`
and flag a version if the sanitized text differs; stamp `generated_at` and
flag a version if a present-and-truthy incoming `generated_content`
differs; create the version (separate committed transaction) when flagged
and a captured field is non-empty; then apply the dump.  A present
`prompt_text` that is explicitly null violates the column's
`nullable=False` at commit time: the generic handler rolls back that
transaction (the already-committed version row survives) and raises 500. -/
def update_prompt (db : DB) (prompt_id : Nat) (prompt_in : PromptUpdate)
    (user_id : Nat) (now : Nat) : Except HTTPError PromptRec × DB :=
  match get_prompt db prompt_id user_id with
  | Except.error e => (Except.error e, db)
  | Except.ok prompt =>
    let version_prompt_text := prompt.prompt_text
    let version_generated_content := prompt.generated_content
    let ptext : Option (Option String) :=
      match prompt_in.prompt_text with
      | some (some s) => if s == "" then some (some s) else some (some (sanitize_prompt_text s))
      | x => x
    let scv_text : Bool :=
      match prompt_in.prompt_text with
      | some (some s) => !(s == "") && !(sanitize_prompt_text s == prompt.prompt_text)
      | _ => false
    let genAt : Option Nat :=
      match prompt_in.generated_content with
      | some (some s) => if s == "" then none else some now
      | _ => none
    let scv_gen : Bool :=
      match prompt_in.generated_content with
      | some (some s) => !(s == "") && !((some s : Option String) == prompt.generated_content)
      | _ => false
    let should_create_version := scv_text || scv_gen
    let db1 :=
      if should_create_version &&
         (!(version_prompt_text == "") || optTruthy version_generated_content) then
        (create_prompt_version db prompt_id version_prompt_text version_generated_content).2
      else db
    if prompt_in.prompt_text.isSome || prompt_in.generated_content.isSome ||
       prompt_in.prompt_type.isSome || prompt_in.status.isSome then
      match ptext with
      | some none => (Except.error ⟨500, "Failed to update prompt"⟩, db1)
      | _ =>
        (Except.ok (applyPromptUpdate prompt_in ptext genAt prompt),
         { db1 with
             prompts := db1.prompts.map
               (fun q => if q.id == prompt_id then applyPromptUpdate prompt_in ptext genAt q else q) })
    else (Except.ok prompt, db1)

/-- `delete_prompt` (lines 284-318): authorize, delete the row; the
`ondelete="CASCADE"` foreign key removes its versions. -/
def delete_prompt (db : DB) (prompt_id user_id : Nat) : Except HTTPError PromptRec × DB :=
  match get_prompt db prompt_id user_id with
  | Except.error e => (Except.error e, db)
  | Except.ok prompt =>
    (Except.ok prompt,
     { db with
         prompts := db.prompts.filter (fun p => !(p.id == prompt_id)),
         versions := db.versions.filter (fun v => !(v.prompt_id == prompt_id)) })

/-- `create_share_link` (lines 321-363).  After the ownership check the
body evaluates `prompt.share_token` — but `Prompt` (app/models/prompt.py)
defines no `share_token` column or attribute, so the access raises
`AttributeError`, which the generic `except Exception` handler turns into
a rollback and HTTP 500.  No token is ever generated, persisted or
returned. -/
def create_share_link (db : DB) (prompt_id user_id : Nat) : Except HTTPError String × DB :=
  match get_prompt db prompt_id user_id with
  | Except.error e => (Except.error e, db)
  | Except.ok _ => (Except.error ⟨500, "Failed to create share link"⟩, db)

/-- `get_shared_prompt` (lines 366-388).  The query references
`Prompt.share_token`, an attribute the model does not define: the
`AttributeError` is swallowed by the `except Exception` branch, which
returns `None` — for every token and every database state. -/
def get_shared_prompt (_db : DB) (_share_token : String) : Option PromptRec :=
  none

/-! ## Routers (app/routers/prompts.py, app/routers/share.py) -/

/-- `GET /share/token` (app/routers/share.py, lines 14-50): no
authentication dependency; `None` becomes a uniform 404. -/
def get_shared_prompt_route (db : DB) (token : String) : Except HTTPError PromptRec :=
  match get_shared_prompt db token with
  | none => Except.error ⟨404, "Shared prompt not found or token is invalid"⟩
  | some p => Except.ok p

/-- The unit of work handed to `background_tasks.add_task`. -/
structure TaskDesc where
  prompt_id : Nat
  prompt_text : String
  user_id : Nat
deriving DecidableEq

/-- `process_prompt` (app/routers/prompts.py, lines 154-203): authorize,
reject when the status is already `processing` (the spec taxonomy's
ConflictError, raised as HTTP 400 "Prompt is already being processed"),
set the status to `processing` through `update_prompt`, enqueue the
background task, and return the re-read prompt without waiting. -/
def process_prompt (db : DB) (prompt_id user_id : Nat) (now : Nat) :
    Except HTTPError (PromptRec × TaskDesc) × DB :=
  match get_prompt db prompt_id user_id with
  | Except.error e => (Except.error e, db)
  | Except.ok prompt =>
    if prompt.status == some "processing" then
      (Except.error ⟨400, "Prompt is already being processed"⟩, db)
    else
      match update_prompt db prompt_id { status := some (some "processing") } user_id now with
      | (Except.error e, db1) => (Except.error e, db1)
      | (Except.ok _, db1) =>
        match get_prompt db1 prompt_id user_id with
        | Except.error e => (Except.error e, db1)
        | Except.ok p2 => (Except.ok (p2, ⟨prompt_id, prompt.prompt_text, user_id⟩), db1)

/-- `create_prompt` (app/services/prompt.py, lines 88-127): validate
ownership of the parent project, sanitize the (already schema-validated)
text, insert with the status column's default `pending`. -/
def create_prompt (db : DB) (prompt_in : PromptCreate) (user_id : Nat) (newId : Nat) :
    Except HTTPError PromptRec × DB :=
  match validate_project_ownership db prompt_in.project_id user_id with
  | Except.error e => (Except.error e, db)
  | Except.ok _ =>
    let p : PromptRec :=
      { id := newId, project_id := prompt_in.project_id, user_id := user_id,
        prompt_text := sanitize_prompt_text prompt_in.prompt_text,
        prompt_type := prompt_in.prompt_type }
    (Except.ok p, { db with prompts := db.prompts ++ [p] })

/-- `create_project` (app/services/project.py, lines 14-44) restricted to
the columns in `ProjectRec`: insert a project owned by the acting user.
It never touches prompts or versions. -/
def create_project (db : DB) (user_id : Nat) (newId : Nat) : DB :=
  { db with projects := db.projects ++ [⟨newId, user_id⟩] }

/-- `PUT /projects/pid/prompts/prompt_id` as seen past FastAPI: pydantic
validation of the body runs before the handler; a validation failure is a
422 response and the service code never runs. -/
def api_update_prompt (db : DB) (prompt_id : Nat) (raw : PromptUpdate)
    (user_id now : Nat) : Except HTTPError PromptRec × DB :=
  match parsePromptUpdate raw with
  | Except.error _ => (Except.error ⟨422, "Unprocessable Entity"⟩, db)
  | Except.ok u => update_prompt db prompt_id u user_id now

/-! ## Payments service (app/services/payments.py) -/

/-- The fields of `event["data"]` the handlers read. -/
structure WebhookData where
  id : Option String := none
  customer_id : Option String := none
  customer_external_id : Option String := none
  status : Option String := none
deriving DecidableEq

/-- A validated webhook event: `event["type"]` and `event["data"]`. -/
structure WebhookEvent where
  type : String
  data : WebhookData
deriving DecidableEq

/-- `_activate_premium_by_user_id` (lines 257-278): set `is_premium` for
the user whose id equals the given string. -/
def activate_premium_by_user_id (db : DB) (user_id : String) : DB :=
  { db with
      users := db.users.map
        (fun u => if u.id == user_id then { u with is_premium := true } else u) }

/-- `_activate_premium_access` (lines 237-255): the body is a logged TODO
stub ("Implement customer ID mapping between Polar and our system"); it
performs no database write. -/
def activate_premium_access (db : DB) (_polar_customer_id : Option String) : DB := db

/-- `_deactivate_premium_access` (lines 280-294): likewise a logged TODO
stub with no database write. -/
def deactivate_premium_access (db : DB) (_polar_customer_id : Option String) : DB := db

/-- `_process_successful_payment` (lines 218-235): prefer the external id
(our user id) when truthy, else fall back to the Polar customer id. -/
def process_successful_payment (db : DB) (d : WebhookData) : DB :=
  if optTruthy d.customer_external_id then
    activate_premium_by_user_id db (d.customer_external_id.getD "")
  else if optTruthy d.customer_id then
    activate_premium_access db d.customer_id
  else db

/-- `process_webhook_event` (lines 135-161) with its handlers
(`_handle_checkout_created` logs only; `_handle_checkout_updated` processes
confirmed checkouts; the four subscription handlers dispatch to the
activation/deactivation stubs). -/
def process_webhook_event (db : DB) (event : WebhookEvent) : DB :=
  if event.type == "checkout.created" then db
  else if event.type == "checkout.updated" then
    (if event.data.status == some "confirmed" then process_successful_payment db event.data
     else db)
  else if event.type == "subscription.created" then
    activate_premium_access db event.data.customer_id
  else if event.type == "subscription.updated" then
    (if event.data.status == some "active" || event.data.status == some "trialing" then
       activate_premium_access db event.data.customer_id
     else if event.data.status == some "canceled" ||
             event.data.status == some "incomplete_expired" ||
             event.data.status == some "past_due" then
       deactivate_premium_access db event.data.customer_id
     else db)
  else if event.type == "subscription.active" then
    activate_premium_access db event.data.customer_id
  else if event.type == "subscription.canceled" then
    deactivate_premium_access db event.data.customer_id
  else db

/-! ## Reachability through the public operations -/

/-- Database states reachable through the public operations: project
creation, prompt creation and update (through pydantic validation of the
payload, as FastAPI guarantees), the processing trigger (whose background
completion/failure callbacks are `update_prompt` calls with validated
payloads, hence instances of `updateStep`), share-link creation, and
deletion. -/
inductive Reachable : DB → Prop
  | empty : Reachable {}
  | newProject (db : DB) (user_id newId : Nat) :
      Reachable db → Reachable (create_project db user_id newId)
  | newPrompt (db : DB) (raw pc : PromptCreate) (user_id newId : Nat) :
      Reachable db → parsePromptCreate raw = Except.ok pc →
      Reachable (create_prompt db pc user_id newId).2
  | updateStep (db : DB) (raw u : PromptUpdate) (prompt_id user_id now : Nat) :
      Reachable db → parsePromptUpdate raw = Except.ok u →
      Reachable (update_prompt db prompt_id u user_id now).2
  | processStep (db : DB) (prompt_id user_id now : Nat) :
      Reachable db → Reachable (process_prompt db prompt_id user_id now).2
  | shareStep (db : DB) (prompt_id user_id : Nat) :
      Reachable db → Reachable (create_share_link db prompt_id user_id).2
  | deleteStep (db : DB) (prompt_id user_id : Nat) :
      Reachable db → Reachable (delete_prompt db prompt_id user_id).2

/-! ## Claim-side (spec-worded) definitions -/

/-- Splitting into maximal whitespace-free words, accumulator form. -/
def splitWsAux : List Char → List Char → List (List Char)
  | [], acc => if acc.isEmpty then [] else [acc.reverse]
  | c :: cs, acc =>
    if isPySpace c then
      (if acc.isEmpty then splitWsAux cs [] else acc.reverse :: splitWsAux cs [])
    else splitWsAux cs (c :: acc)

/-- The whitespace-separated words of a string (like Python `str.split()`). -/
def splitWs (l : List Char) : List (List Char) := splitWsAux l []

/-- Join words with single spaces. -/
def joinWords : List (List Char) → List Char
  | [] => []
  | [w] => w
  | w :: ws => w ++ ' ' :: joinWords ws

/-- Sanitization as the claim words it, written independently of the
regex passes: collapsing every whitespace run to one space and trimming
both ends is exactly joining the whitespace-separated words with single
spaces; then every forbidden character is removed. -/
def sanitizeSpec (text : String) : String :=
  if text = "" then ""
  else ⟨(joinWords (splitWs text.data)).filter (fun c => !isForbidden c)⟩

/-- The amended snapshot condition of claim C3: an incoming field that is
present, non-null, non-empty, and differs from the stored value (after
sanitization, for the text). -/
def snapshotCond (u : PromptUpdate) (p : PromptRec) : Bool :=
  (match u.prompt_text with
   | some (some s) => !(s == "") && !(sanitize_prompt_text s == p.prompt_text)
   | _ => false) ||
  (match u.generated_content with
   | some (some s) => !(s == "") && !((some s : Option String) == p.generated_content)
   | _ => false)

/-! ## Concrete states and payloads used as witnesses and counterexamples -/

/-- A prompt as the service stores it (sanitized text, default status). -/
def basePrompt : PromptRec :=
  { id := 2, project_id := 1, user_id := 10, prompt_text := "vibe coding test" }

/-- One project (id 1, owner 10) holding `basePrompt`. -/
def baseDB : DB := { projects := [⟨1, 10⟩], prompts := [basePrompt] }

/-- A prompt that already carries generated content. -/
def genPrompt : PromptRec :=
  { id := 2, project_id := 1, user_id := 10, prompt_text := "vibe coding test",
    generated_content := some "old generated stuff" }

def genDB : DB := { projects := [⟨1, 10⟩], prompts := [genPrompt] }

/-- `basePrompt` while a completion is in flight. -/
def processingPrompt : PromptRec := { basePrompt with status := some "processing" }

def processingDB : DB := { projects := [⟨1, 10⟩], prompts := [processingPrompt] }

/-- An update payload whose text differs from the stored text only by a
doubled space: a different string that sanitizes to the stored value. -/
def diffTextUpdate : PromptUpdate := { prompt_text := some (some "vibe  coding test") }

/-- An update payload with a genuinely different text. -/
def newTextUpdate : PromptUpdate := { prompt_text := some (some "vibe coding dark mode") }

/-- An update payload that explicitly sets `generated_content` to the empty
string (legal JSON for the schema: the field has no validator). -/
def emptyGenUpdate : PromptUpdate := { generated_content := some (some "") }

/-- An update payload carrying fresh non-empty generated content. -/
def newGenUpdate : PromptUpdate := { generated_content := some (some "vibe coding fresh output") }

/-- States of the explicit-null-status scenario: a project, a prompt
created through the validated public interface, then a `PUT` whose body is
exactly the JSON object with `status: null`. -/
def projDB : DB := create_project {} 10 1

def createBody : PromptCreate := { prompt_text := "vibe coding dark mode", project_id := 1 }

def createdDB : DB := (create_prompt projDB createBody 10 2).2

def nullStatusUpdate : PromptUpdate := { status := some none }

def nullStatusDB : DB := (update_prompt createdDB 2 nullStatusUpdate 10 0).2

/-- A store with one non-premium user mapped to Polar customer c1. -/
def premiumDB : DB := { users := [⟨"u1", false⟩] }

def subCreatedEvent : WebhookEvent := ⟨"subscription.created", { customer_id := some "c1" }⟩

/-! ## Helper lemmas -/

/-- When the prompt exists, its project exists and the acting user owns it,
the service read succeeds and returns the row. -/
theorem get_prompt_ok (db : DB) (pid uid : Nat) (p : PromptRec) (pr : ProjectRec)
    (hp : findPrompt db pid = some p) (hpr : findProject db p.project_id = some pr)
    (hown : pr.user_id = uid) : get_prompt db pid uid = Except.ok p := by
  simp [get_prompt, validate_project_ownership, hp, hpr, hown]

/-- Updating the row identified by an id through a map commutes with the
first-match lookup, provided the update preserves ids. -/
theorem find?_map_update (l : List PromptRec) (pid : Nat) (g : PromptRec → PromptRec)
    (hg : ∀ q, (g q).id = q.id) (p : PromptRec)
    (h : l.find? (fun q => q.id == pid) = some p) :
    (l.map (fun q => if q.id == pid then g q else q)).find? (fun q => q.id == pid)
      = some (g p) := by
  induction l with
  | nil => simp at h
  | cons a t ih =>
    cases ha : a.id == pid with
    | true =>
      have hfind : List.find? (fun q => q.id == pid) (a :: t) = some a := by
        simp [List.find?, ha]
      rw [hfind] at h
      cases h
      simp [List.find?, List.map_cons, ha, hg]
    | false =>
      simp only [List.find?, ha] at h
      simp only [List.map_cons, ha, Bool.false_eq_true, if_false]
      rw [List.find?]
      simp only [ha]
      exact ih h

/-- The version rows produced by one authorized update: a snapshot of the
pre-update values, numbered max+1, is appended exactly when the amended
snapshot condition holds and a captured field is non-empty; otherwise the
version table is untouched. -/
theorem update_prompt_versions_eq (db : DB) (prompt_id user_id now : Nat)
    (u : PromptUpdate) (p : PromptRec) (pr : ProjectRec)
    (hp : findPrompt db prompt_id = some p)
    (hpr : findProject db p.project_id = some pr)
    (hown : pr.user_id = user_id) :
    (update_prompt db prompt_id u user_id now).2.versions =
      (if snapshotCond u p && (!(p.prompt_text == "") || optTruthy p.generated_content)
       then db.versions ++
         [⟨prompt_id, maxVersionNumber db prompt_id + 1, p.prompt_text, p.generated_content⟩]
       else db.versions) := by
  have hget := get_prompt_ok db prompt_id user_id p pr hp hpr hown
  rcases u with ⟨pt, gc, ty, st⟩
  rcases pt with _ | (_ | s) <;> rcases gc with _ | (_ | g) <;>
    simp only [update_prompt, hget, snapshotCond]
  · split <;> rfl
  · split <;> rfl
  · by_cases hgg : g == "" <;>
      simp only [hgg, Bool.not_true, Bool.not_false, Bool.false_and, Bool.true_and,
        Bool.false_or, Bool.or_false, Bool.and_false, Bool.true_or, Bool.or_true,
        Option.isSome_some, Option.isSome_none, if_true, if_false] <;>
      try (split <;> rfl)
  · rfl
  · rfl
  · by_cases hgg : g == "" <;>
      simp only [hgg, Bool.not_true, Bool.not_false, Bool.false_and, Bool.true_and,
        Bool.false_or, Bool.or_false, Bool.and_false, Bool.true_or, Bool.or_true,
        Option.isSome_some, Option.isSome_none, if_true, if_false] <;>
      try (split <;> rfl)
  · by_cases hs : s == "" <;>
      (try simp [hs, create_prompt_version]) <;>
      (try (split <;> simp [create_prompt_version]))
  · by_cases hs : s == "" <;>
      (try simp [hs, create_prompt_version]) <;>
      (try (split <;> simp [create_prompt_version]))
  · by_cases hs : s == "" <;> by_cases hgg : g == "" <;>
      (try simp [hs, hgg, create_prompt_version]) <;>
      (try (split <;> simp [create_prompt_version]))

/-- Applying an update that only sets the status writes only the status. -/
theorem applyPromptUpdate_status_only (q : PromptRec) :
    applyPromptUpdate { status := some (some "processing") } none none q
      = { q with status := some "processing" } := rfl

/-- An authorized update that only sets the status to processing: no
version is created, the row's status is overwritten, nothing else moves. -/
theorem update_prompt_set_processing (db : DB) (prompt_id user_id now : Nat)
    (p : PromptRec) (pr : ProjectRec)
    (hp : findPrompt db prompt_id = some p)
    (hpr : findProject db p.project_id = some pr)
    (hown : pr.user_id = user_id) :
    update_prompt db prompt_id { status := some (some "processing") } user_id now =
      (Except.ok { p with status := some "processing" },
       { db with prompts := db.prompts.map (fun q => if q.id == prompt_id then { q with status := some "processing" } else q) }) := by
  have hget := get_prompt_ok db prompt_id user_id p pr hp hpr hown
  simp [update_prompt, hget, applyPromptUpdate_status_only]

/-! ## Claims -/

/-- C1 (amended).  For every stored prompt whose prompt_text is non-empty
and sanitization-normal (as every prompt the service itself persists is),
an authorized updatePrompt carrying only a non-empty prompt_text creates
no new PromptVersion when the incoming text equals the stored value — more
generally, when its sanitized form equals the stored value — and creates
exactly one new PromptVersion, numbered maximum existing version_number
(0 when none exist) plus 1, when the sanitized incoming text differs. -/
theorem C1_update_versioning (db : DB) (prompt_id user_id now : Nat) (s : String)
    (p : PromptRec) (pr : ProjectRec)
    (hp : findPrompt db prompt_id = some p)
    (hpr : findProject db p.project_id = some pr)
    (hown : pr.user_id = user_id)
    (hnorm : sanitize_prompt_text p.prompt_text = p.prompt_text)
    (hne : p.prompt_text ≠ "") (hs : s ≠ "") :
    (s = p.prompt_text →
      (update_prompt db prompt_id { prompt_text := some (some s) } user_id now).2.versions
        = db.versions) ∧
    (sanitize_prompt_text s = p.prompt_text →
      (update_prompt db prompt_id { prompt_text := some (some s) } user_id now).2.versions
        = db.versions) ∧
    (sanitize_prompt_text s ≠ p.prompt_text →
      (update_prompt db prompt_id { prompt_text := some (some s) } user_id now).2.versions
        = db.versions ++
          [⟨prompt_id, maxVersionNumber db prompt_id + 1, p.prompt_text, p.generated_content⟩]) := by
  have hv := update_prompt_versions_eq db prompt_id user_id now
    { prompt_text := some (some s) } p pr hp hpr hown
  have hcond : snapshotCond { prompt_text := some (some s) } p
      = (!(s == "") && !(sanitize_prompt_text s == p.prompt_text)) := by
    simp [snapshotCond]
  refine ⟨?_, ?_, ?_⟩
  · intro heq
    have hsan : sanitize_prompt_text s = p.prompt_text := by rw [heq, hnorm]
    rw [hv, hcond]
    simp [hsan]
  · intro hsan
    rw [hv, hcond]
    simp [hsan]
  · intro hdiff
    rw [hv, hcond]
    simp [hs, hne, beq_iff_eq, hdiff]

/-- C1 counterexample.  The claim as stated fails: the payload text
"vibe  coding test" (double space) passes schema validation, differs from
the stored text "vibe coding test", yet the authorized update persists no
PromptVersion at all and leaves the store byte-for-byte unchanged, because
the service compares the SANITIZED incoming text with the stored value. -/
theorem C1_different_text_no_version :
    parsePromptUpdate diffTextUpdate = Except.ok diffTextUpdate ∧
    diffTextUpdate.prompt_text = some (some "vibe  coding test") ∧
    basePrompt.prompt_text = "vibe coding test" ∧
    ("vibe  coding test" : String) ≠ "vibe coding test" ∧
    findPrompt baseDB 2 = some basePrompt ∧
    (update_prompt baseDB 2 diffTextUpdate 10 0).1 = Except.ok basePrompt ∧
    (update_prompt baseDB 2 diffTextUpdate 10 0).2 = baseDB :=
  ⟨rfl, rfl, rfl, by decide, rfl, by rfl, by decide⟩

/-- C1 witness: a genuinely different text ("vibe coding dark mode") on
the base store appends exactly the version row numbered 0 + 1 carrying the
pre-update values. -/
theorem C1_update_versioning_witness :
    (update_prompt baseDB 2 newTextUpdate 10 0).2.versions =
      baseDB.versions ++
        [⟨2, maxVersionNumber baseDB 2 + 1, basePrompt.prompt_text,
          basePrompt.generated_content⟩] :=
  (C1_update_versioning baseDB 2 10 0 "vibe coding dark mode" basePrompt ⟨1, 10⟩
    rfl rfl rfl (by decide) (by decide) (by decide)).2.2 (by decide)

/-- C3 (amended).  For every authorized update, a version snapshot is
persisted if and only if (the incoming prompt_text is present, non-null,
non-empty and its sanitized form differs from the current text, OR the
incoming generated_content is present, non-null, non-empty and differs
from the current value) AND at least one pre-update field is non-empty;
the persisted row carries the pre-update values and number max+1.  In
particular an update whose incoming generated_content is present and
NON-EMPTY and differs from the current value triggers a snapshot. -/
theorem C3_snapshot_characterization (db : DB) (prompt_id user_id now : Nat)
    (u : PromptUpdate) (p : PromptRec) (pr : ProjectRec)
    (hp : findPrompt db prompt_id = some p)
    (hpr : findProject db p.project_id = some pr)
    (hown : pr.user_id = user_id) :
    (update_prompt db prompt_id u user_id now).2.versions =
      (if snapshotCond u p && (!(p.prompt_text == "") || optTruthy p.generated_content)
       then db.versions ++
         [⟨prompt_id, maxVersionNumber db prompt_id + 1, p.prompt_text, p.generated_content⟩]
       else db.versions) :=
  update_prompt_versions_eq db prompt_id user_id now u p pr hp hpr hown

/-- C3 counterexample.  The claim's iff fails on the code: an update whose
incoming generated_content is the empty string differs from the stored
non-empty value "old generated stuff" — the claim therefore demands a
snapshot — but Python truthiness skips the comparison entirely: the
content is overwritten and no PromptVersion is persisted. -/
theorem C3_empty_content_overwrites_without_snapshot :
    parsePromptUpdate emptyGenUpdate = Except.ok emptyGenUpdate ∧
    emptyGenUpdate.generated_content = some (some "") ∧
    genPrompt.generated_content = some "old generated stuff" ∧
    (some "" : Option String) ≠ some "old generated stuff" ∧
    findPrompt genDB 2 = some genPrompt ∧
    (update_prompt genDB 2 emptyGenUpdate 10 0).1 =
      Except.ok { genPrompt with generated_content := some "" } ∧
    (update_prompt genDB 2 emptyGenUpdate 10 0).2.versions = [] :=
  ⟨rfl, rfl, rfl, by decide, rfl, by rfl, by decide⟩

/-- C3 witness: fresh non-empty generated content on a prompt holding old
content snapshots the pre-update pair as version 1. -/
theorem C3_snapshot_characterization_witness :
    (update_prompt genDB 2 newGenUpdate 10 0).2.versions =
      [⟨2, 1, "vibe coding test", some "old generated stuff"⟩] := by
  have h := C3_snapshot_characterization genDB 2 10 0 newGenUpdate genPrompt ⟨1, 10⟩
    rfl rfl rfl
  rw [h]
  decide

/-- C4.  For every authorized processPromptAsync call: when the prompt's
status is already processing it is rejected with the spec taxonomy's
ConflictError (HTTP 400 "Prompt is already being processed") and the store
is returned unchanged; otherwise the status is set to processing — no
other field moves, no version is created — the completion task is enqueued
with the prompt's text, and the prompt is returned immediately with status
processing. -/
theorem C4_process_conflict (db : DB) (prompt_id user_id now : Nat)
    (p : PromptRec) (pr : ProjectRec)
    (hp : findPrompt db prompt_id = some p)
    (hpr : findProject db p.project_id = some pr)
    (hown : pr.user_id = user_id) :
    (p.status = some "processing" →
      process_prompt db prompt_id user_id now =
        (Except.error ⟨400, "Prompt is already being processed"⟩, db)) ∧
    (p.status ≠ some "processing" →
      process_prompt db prompt_id user_id now =
        (Except.ok ({ p with status := some "processing" }, ⟨prompt_id, p.prompt_text, user_id⟩),
         { db with prompts := db.prompts.map (fun q => if q.id == prompt_id then { q with status := some "processing" } else q) })) := by
  have hget := get_prompt_ok db prompt_id user_id p pr hp hpr hown
  constructor
  · intro hstat
    simp [process_prompt, hget, hstat]
  · intro hstat
    have hbeq : (p.status == some "processing") = false := beq_eq_false_iff_ne.mpr hstat
    have hupd := update_prompt_set_processing db prompt_id user_id now p pr hp hpr hown
    have hfp2 : findPrompt
        { db with prompts := db.prompts.map (fun q => if q.id == prompt_id then { q with status := some "processing" } else q) }
        prompt_id = some { p with status := some "processing" } :=
      find?_map_update db.prompts prompt_id
        (fun q => { q with status := some "processing" }) (fun _ => rfl) p hp
    have hget2 : get_prompt
        { db with prompts := db.prompts.map (fun q => if q.id == prompt_id then { q with status := some "processing" } else q) }
        prompt_id user_id = Except.ok { p with status := some "processing" } := by
      apply get_prompt_ok _ _ _ _ pr hfp2 _ hown
      exact hpr
    simp only [process_prompt, hget, hbeq, Bool.false_eq_true, if_false, hupd, hget2]

/-- C4 witness: the two branches at concrete stores — a prompt already
processing is rejected with the store unchanged; a pending prompt comes
back immediately as processing with the task payload enqueued. -/
theorem C4_process_conflict_witness :
    process_prompt processingDB 2 10 5 =
      (Except.error ⟨400, "Prompt is already being processed"⟩, processingDB) ∧
    process_prompt baseDB 2 10 5 =
      (Except.ok ({ basePrompt with status := some "processing" }, ⟨2, "vibe coding test", 10⟩),
       { baseDB with prompts := [{ basePrompt with status := some "processing" }] }) := by
  constructor
  · exact (C4_process_conflict processingDB 2 10 5 processingPrompt ⟨1, 10⟩ rfl rfl rfl).1 rfl
  · have h := (C4_process_conflict baseDB 2 10 5 basePrompt ⟨1, 10⟩ rfl rfl rfl).2 (by decide)
    exact h.trans (by rfl)

/-- C2.  For every existing prompt and every acting user who is not the
owner of the prompt's parent project, getPrompt, updatePrompt and
deletePrompt fail with the authorization failure (HTTP 403 "Not enough
permissions") — a constant carrying none of the prompt's content — and
leave the store unchanged; ownership is checked transitively through the
parent project, and a 404 is produced only when the prompt or its project
is absent. -/
theorem C2_ownership (db : DB) (prompt_id user_id now : Nat) (u : PromptUpdate)
    (p : PromptRec) (pr : ProjectRec)
    (hp : findPrompt db prompt_id = some p)
    (hpr : findProject db p.project_id = some pr)
    (hown : pr.user_id ≠ user_id) :
    get_prompt db prompt_id user_id = Except.error ⟨403, "Not enough permissions"⟩ ∧
    update_prompt db prompt_id u user_id now =
      (Except.error ⟨403, "Not enough permissions"⟩, db) ∧
    delete_prompt db prompt_id user_id =
      (Except.error ⟨403, "Not enough permissions"⟩, db) ∧
    (∀ (db2 : DB) (pid2 uid2 : Nat) (e : HTTPError),
        get_prompt db2 pid2 uid2 = Except.error e → e.code = 404 →
        findPrompt db2 pid2 = none ∨
        ∃ q, findPrompt db2 pid2 = some q ∧ findProject db2 q.project_id = none) := by
  have hget : get_prompt db prompt_id user_id =
      Except.error ⟨403, "Not enough permissions"⟩ := by
    simp [get_prompt, validate_project_ownership, hp, hpr, hown]
  refine ⟨hget, ?_, ?_, ?_⟩
  · simp [update_prompt, hget]
  · simp [delete_prompt, hget]
  · intro db2 pid2 uid2 e hgp hcode
    cases hfp : findPrompt db2 pid2 with
    | none => exact Or.inl rfl
    | some q =>
      cases hproj : findProject db2 q.project_id with
      | none => exact Or.inr ⟨q, rfl, hproj⟩
      | some pr2 =>
        exfalso
        by_cases howner : pr2.user_id = uid2
        · simp [get_prompt, validate_project_ownership, hfp, hproj, howner] at hgp
        · simp [get_prompt, validate_project_ownership, hfp, hproj, howner] at hgp
          rw [← hgp] at hcode
          simp at hcode

/-- C2 witness: user 99 is denied on the prompt owned by user 10. -/
theorem C2_ownership_witness :
    get_prompt baseDB 2 99 = Except.error ⟨403, "Not enough permissions"⟩ ∧
    update_prompt baseDB 2 {} 99 0 =
      (Except.error ⟨403, "Not enough permissions"⟩, baseDB) ∧
    delete_prompt baseDB 2 99 = (Except.error ⟨403, "Not enough permissions"⟩, baseDB) := by
  have h := C2_ownership baseDB 2 99 0 {} basePrompt ⟨1, 10⟩ rfl rfl (by decide)
  exact ⟨h.1, h.2.1, h.2.2.1⟩

/-- C6.  The claimed idempotent share token can never be produced: the
Prompt model declares no share_token column, so after a successful
ownership check create_share_link dies on the attribute access and every
call returns HTTP 500 with the store unchanged — it never returns a token
at all, let alone the same one twice. -/
theorem C6_share_link_broken (db : DB) (prompt_id user_id : Nat)
    (p : PromptRec) (pr : ProjectRec)
    (hp : findPrompt db prompt_id = some p)
    (hpr : findProject db p.project_id = some pr)
    (hown : pr.user_id = user_id) :
    create_share_link db prompt_id user_id =
      (Except.error ⟨500, "Failed to create share link"⟩, db) := by
  simp [create_share_link, get_prompt_ok db prompt_id user_id p pr hp hpr hown]

/-- C6 witness: the owner of the base prompt gets the 500, twice in a row,
with no state change. -/
theorem C6_share_link_broken_witness :
    create_share_link baseDB 2 10 =
      (Except.error ⟨500, "Failed to create share link"⟩, baseDB) :=
  C6_share_link_broken baseDB 2 10 basePrompt ⟨1, 10⟩ rfl rfl rfl

/-- C7.  resolveSharedPrompt takes no authentication argument, but because
the Prompt model has no share_token column the lookup always raises and is
swallowed: the service returns none and the public route answers the same
constant 404 for every token and every store — no token, well-formed or
not, can ever resolve to a prompt. -/
theorem C7_shared_lookup_always_not_found (db : DB) (token : String) :
    get_shared_prompt db token = none ∧
    get_shared_prompt_route db token =
      Except.error ⟨404, "Shared prompt not found or token is invalid"⟩ :=
  ⟨rfl, rfl⟩

/-- C8.  Every subscription-lifecycle webhook event is dispatched to
_activate_premium_access / _deactivate_premium_access, whose bodies are
TODO stubs: the store — in particular every user's premium flag — is left
unchanged, for any event data and any status value. -/
theorem C8_subscription_events_are_noops (db : DB) (t : String) (d : WebhookData)
    (h : t = "subscription.created" ∨ t = "subscription.updated" ∨
         t = "subscription.active" ∨ t = "subscription.canceled") :
    process_webhook_event db ⟨t, d⟩ = db := by
  rcases h with rfl | rfl | rfl | rfl <;>
    simp [process_webhook_event, activate_premium_access, deactivate_premium_access]

/-- C8 witness: a validated subscription.created event for customer c1
leaves the non-premium user u1 non-premium. -/
theorem C8_subscription_events_are_noops_witness :
    process_webhook_event premiumDB subCreatedEvent = premiumDB ∧
    premiumDB.users = [⟨"u1", false⟩] :=
  ⟨C8_subscription_events_are_noops premiumDB "subscription.created"
    { customer_id := some "c1" } (Or.inl rfl), rfl⟩

/-- C9.  The four-value status domain is escapable through the public
interface: a store reachable by project creation, validated prompt
creation, and one validated update whose body is exactly the JSON object
with status null (the regex constraint is skipped for an explicit null and
the status column is nullable) contains a prompt whose status is NULL —
none of pending, processing, completed, failed. -/
theorem C9_null_status_reachable :
    Reachable nullStatusDB ∧
    ∃ p, p ∈ nullStatusDB.prompts ∧ p.status = none ∧
      ∀ s, s ∈ validStatusValues → p.status ≠ some s := by
  constructor
  · have h0 : Reachable {} := Reachable.empty
    have h1 : Reachable projDB := Reachable.newProject {} 10 1 h0
    have h2 : Reachable createdDB :=
      Reachable.newPrompt projDB createBody createBody 10 2 h1 rfl
    exact Reachable.updateStep createdDB nullStatusUpdate nullStatusUpdate 2 10 0 h2 rfl
  · refine ⟨⟨2, 1, 10, "vibe coding dark mode", none, none, none, none⟩, ?_, rfl, ?_⟩
    · decide
    · intro s _ h
      cases h

/-- Everything the validator guarantees about an accepted prompt_text. -/
theorem validate_vibe_text_ok_facts (v r : String)
    (h : validate_vibe_text v = Except.ok r) :
    ¬ (pyStrip v.data).length < 10 ∧ hasVibeKeyword v = true ∧
    hasForbiddenChar v = false ∧ r = pyStripStr v := by
  by_cases h1 : v.length < 10
  · simp [validate_vibe_text, h1] at h
  · by_cases h2 : (pyStrip v.data).length < 10
    · simp [validate_vibe_text, h1, h2] at h
    · by_cases h3 : hasVibeKeyword v
      · by_cases h4 : hasForbiddenChar v
        · simp [validate_vibe_text, h1, h2, h3, h4] at h
        · simp [validate_vibe_text, h1, h2, h3, h4] at h
          exact ⟨h2, by simpa using h3, by simpa using h4, h.symm⟩
      · simp [validate_vibe_text, h1, h2, h3] at h

/-- Characters surviving a Python strip were in the original string. -/
theorem mem_pyStrip (c : Char) (l : List Char) (h : c ∈ pyStrip l) : c ∈ l := by
  unfold pyStrip stripBack stripFront at h
  rw [List.mem_reverse] at h
  have h2 := List.Sublist.mem h (List.dropWhile_sublist _)
  rw [List.mem_reverse] at h2
  exact List.Sublist.mem h2 (List.dropWhile_sublist _)

/-- Characters produced by whitespace collapsing were in the original
string or are the single space. -/
theorem mem_collapseWs (c : Char) (l : List Char) (b : Bool)
    (h : c ∈ collapseWs l b) : c ∈ l ∨ c = ' ' := by
  induction l generalizing b with
  | nil => simp [collapseWs] at h
  | cons a t ih =>
    by_cases ha : isPySpace a
    · cases b with
      | true =>
        simp only [collapseWs, ha, if_true] at h
        rcases ih true h with h2 | h2
        · exact Or.inl (List.mem_cons_of_mem a h2)
        · exact Or.inr h2
      | false =>
        simp only [collapseWs, ha, if_true] at h
        rcases List.mem_cons.mp h with rfl | h2
        · exact Or.inr rfl
        · rcases ih true h2 with h3 | h3
          · exact Or.inl (List.mem_cons_of_mem a h3)
          · exact Or.inr h3
    · simp only [collapseWs, ha, if_false, Bool.false_eq_true] at h
      rcases List.mem_cons.mp h with rfl | h2
      · exact Or.inl (List.mem_cons_self _ _)
      · rcases ih false h2 with h3 | h3
        · exact Or.inl (List.mem_cons_of_mem a h3)
        · exact Or.inr h3

/-- On a string without forbidden characters, the character-stripping pass
of sanitization removes nothing. -/
theorem sanitize_no_forbidden (r : String) (hr : hasForbiddenChar r = false) :
    sanitize_prompt_text r = ⟨pyStrip (collapseWs r.data false)⟩ := by
  unfold sanitize_prompt_text
  by_cases h0 : r = ""
  · subst h0
    rfl
  · rw [if_neg h0]
    congr 1
    apply List.filter_eq_self.mpr
    intro a ha
    rcases mem_collapseWs a r.data false (mem_pyStrip a _ ha) with hmem | rfl
    · have hnf : ¬ isForbidden a = true := by
        intro hf
        have : r.data.any isForbidden = true := List.any_eq_true.mpr ⟨a, hmem, hf⟩
        rw [hasForbiddenChar] at hr
        rw [this] at hr
        cases hr
      simpa using hnf
    · decide

/-- C10.  The create/update schemas reject — before any service logic
runs, with the store untouched — every prompt_text shorter than 10
characters after trimming, or containing a forbidden character, or
containing no vibe-coding keyword; consequently every prompt_text the
service receives through the public interface has no forbidden character,
and on such inputs sanitize_prompt_text is exactly
whitespace-collapse-and-trim (the character-stripping step is a no-op). -/
theorem C10_schema_validation :
    (∀ v : String,
        ((pyStrip v.data).length < 10 ∨ hasForbiddenChar v = true ∨ hasVibeKeyword v = false) →
        (∀ r, validate_vibe_text v ≠ Except.ok r) ∧
        (∀ (raw : PromptUpdate) (db : DB) (prompt_id user_id now : Nat),
            raw.prompt_text = some (some v) →
            api_update_prompt db prompt_id raw user_id now =
              (Except.error ⟨422, "Unprocessable Entity"⟩, db))) ∧
    (∀ v r : String, validate_vibe_text v = Except.ok r →
        hasForbiddenChar r = false ∧
        sanitize_prompt_text r = ⟨pyStrip (collapseWs r.data false)⟩) := by
  constructor
  · intro v hbad
    have hval : ∀ r, validate_vibe_text v ≠ Except.ok r := by
      intro r h
      obtain ⟨hlen, hkw, hforb, -⟩ := validate_vibe_text_ok_facts v r h
      rcases hbad with h1 | h2 | h3
      · exact hlen h1
      · rw [hforb] at h2; cases h2
      · rw [hkw] at h3; cases h3
    refine ⟨hval, ?_⟩
    intro raw db prompt_id user_id now hraw
    have hparse : ∃ e, parsePromptUpdate raw = Except.error e := by
      unfold parsePromptUpdate
      by_cases hA : regexOk validPromptTypes raw.prompt_type
      · by_cases hB : regexOk validStatusValues raw.status
        · rw [hraw]
          simp only [hA, hB, Bool.not_true, Bool.false_eq_true, if_false]
          cases hv : validate_vibe_text v with
          | error e => exact ⟨e, rfl⟩
          | ok r => exact absurd hv (hval r)
        · refine ⟨"string does not match regex (status)", ?_⟩
          simp [hA, hB]
      · refine ⟨"string does not match regex (prompt_type)", ?_⟩
        simp [hA]
    obtain ⟨e, he⟩ := hparse
    simp [api_update_prompt, he]
  · intro v r h
    obtain ⟨-, -, hforb, hre⟩ := validate_vibe_text_ok_facts v r h
    subst hre
    have hrf : hasForbiddenChar (pyStripStr v) = false := by
      unfold hasForbiddenChar pyStripStr
      apply List.any_eq_false.mpr
      intro a ha
      have hav : a ∈ v.data := mem_pyStrip a v.data ha
      intro hf
      have : v.data.any isForbidden = true := List.any_eq_true.mpr ⟨a, hav, hf⟩
      rw [hasForbiddenChar] at hforb
      rw [this] at hforb
      cases hforb
    exact ⟨hrf, sanitize_no_forbidden _ hrf⟩

/-- C10 witness: a concrete accepted payload reaches the service with no
forbidden character and sanitizes by whitespace normalization alone. -/
theorem C10_schema_validation_witness :
    hasForbiddenChar "vibe coding dark mode" = false ∧
    sanitize_prompt_text "vibe coding dark mode" =
      ⟨pyStrip (collapseWs ("vibe coding dark mode").data false)⟩ :=
  C10_schema_validation.2 "  vibe coding dark mode " "vibe coding dark mode" rfl

/-! ## Whitespace normalization refinement (for C5) -/

/-- Collapsing with the in-run flag set equals collapsing after dropping
the leading whitespace run. -/
theorem collapseWs_true_eq (l : List Char) :
    collapseWs l true = collapseWs (l.dropWhile isPySpace) false := by
  induction l with
  | nil => rfl
  | cons c cs ih =>
    by_cases hc : isPySpace c
    · simp only [collapseWs, hc, if_true, List.dropWhile_cons]
      exact ih
    · simp only [collapseWs, hc, if_false, Bool.false_eq_true, List.dropWhile_cons]

/-- A whitespace-headed list collapses to a single space followed by the
collapse of what follows the run. -/
theorem collapseWs_cons_space (c : Char) (cs : List Char) (hc : isPySpace c = true) :
    collapseWs (c :: cs) false = ' ' :: collapseWs (cs.dropWhile isPySpace) false := by
  simp only [collapseWs, hc, if_true, Bool.false_eq_true, if_false]
  rw [collapseWs_true_eq]

/-- Collapsing passes an all-nonspace prefix through unchanged. -/
theorem collapseWs_nonspace_word (w r : List Char)
    (hw : ∀ c ∈ w, isPySpace c = false) :
    collapseWs (w ++ r) false = w ++ collapseWs r false := by
  induction w with
  | nil => rfl
  | cons a t ih =>
    have ha : isPySpace a = false := hw a (List.mem_cons_self _ _)
    simp only [List.cons_append, collapseWs, ha, if_false, Bool.false_eq_true, List.append_eq]
    rw [ih (fun c hc => hw c (List.mem_cons_of_mem a hc))]

/-- Dropping leading whitespace does not change the word split. -/
theorem splitWs_dropWhile (l : List Char) :
    splitWs (l.dropWhile isPySpace) = splitWs l := by
  induction l with
  | nil => rfl
  | cons c cs ih =>
    by_cases hc : isPySpace c
    · rw [List.dropWhile_cons, if_pos hc, ih]
      show splitWs cs = splitWsAux (c :: cs) []
      simp [splitWsAux, hc, splitWs]
    · rw [List.dropWhile_cons, if_neg (by simp [hc])]

/-- The split accumulator swallows an all-nonspace prefix. -/
theorem splitWsAux_nonspace_word (w : List Char) :
    ∀ (r acc : List Char), (∀ c ∈ w, isPySpace c = false) →
    splitWsAux (w ++ r) acc = splitWsAux r (w.reverse ++ acc) := by
  induction w with
  | nil => intro r acc _; simp
  | cons a t ih =>
    intro r acc hw
    have ha : isPySpace a = false := hw a (List.mem_cons_self _ _)
    simp only [List.cons_append, splitWsAux, ha, if_false, Bool.false_eq_true, List.append_eq]
    rw [ih r (a :: acc) (fun c hc => hw c (List.mem_cons_of_mem a hc))]
    congr 1
    simp

/-- With a non-empty accumulator the split never yields an empty join. -/
theorem joinWords_splitWsAux_ne_nil (l : List Char) :
    ∀ acc : List Char, acc ≠ [] → joinWords (splitWsAux l acc) ≠ [] := by
  induction l with
  | nil =>
    intro acc hacc
    simp only [splitWsAux, List.isEmpty_iff]
    rw [if_neg hacc]
    simpa [joinWords] using hacc
  | cons c cs ih =>
    intro acc hacc
    by_cases hc : isPySpace c
    · simp only [splitWsAux, hc, if_true, List.isEmpty_iff]
      rw [if_neg hacc]
      cases hws : splitWsAux cs [] with
      | nil => simpa [joinWords] using hacc
      | cons x xs =>
        simp only [joinWords]
        intro hcontra
        rcases List.append_eq_nil.mp hcontra with ⟨-, h2⟩
        cases h2
    · simp only [splitWsAux, hc, if_false, Bool.false_eq_true]
      exact ih (c :: acc) (by simp)

/-- A trailing single space is removed by the right strip. -/
theorem stripBack_append_space (x : List Char) : stripBack (x ++ [' ']) = stripBack x := by
  simp only [stripBack, List.reverse_append, List.reverse_cons, List.reverse_nil,
    List.nil_append, List.singleton_append, List.dropWhile_cons]
  rw [if_pos (by decide : isPySpace ' ' = true)]

/-- An all-nonspace list is unchanged by the right strip. -/
theorem stripBack_nonspace (x : List Char) (hx : ∀ c ∈ x, isPySpace c = false) :
    stripBack x = x := by
  unfold stripBack
  cases hrev : x.reverse with
  | nil =>
    have : x = [] := by simpa using congrArg List.reverse hrev
    subst this
    rfl
  | cons a t =>
    have ha : isPySpace a = false := by
      apply hx
      rw [← List.mem_reverse, hrev]
      exact List.mem_cons_self _ _
    rw [List.dropWhile_cons, if_neg (by simp [ha]), ← hrev, List.reverse_reverse]

/-- The left strip is the identity past a non-whitespace head. -/
theorem stripFront_nonspace_head (c : Char) (cs : List Char) (hc : isPySpace c = false) :
    stripFront (c :: cs) = c :: cs := by
  simp [stripFront, List.dropWhile_cons, hc]

/-- The right strip distributes over an append whose right part does not
strip to nothing. -/
theorem stripBack_append_of_ne_nil (x y : List Char) (hy : stripBack y ≠ []) :
    stripBack (x ++ y) = x ++ stripBack y := by
  unfold stripBack at *
  rw [List.reverse_append, List.dropWhile_append]
  have h1 : (y.reverse.dropWhile isPySpace).isEmpty = false := by
    cases hdw : y.reverse.dropWhile isPySpace with
    | nil => rw [hdw] at hy; simp at hy
    | cons a t => rfl
  rw [h1]
  simp only [Bool.false_eq_true, if_false, List.reverse_append, List.reverse_reverse]

/-- Joining a word onto a non-empty word list inserts one space. -/
theorem joinWords_cons_cons (w x : List Char) (ws : List (List Char)) :
    joinWords (w :: x :: ws) = w ++ ' ' :: joinWords (x :: ws) := rfl

/-- The head of a dropWhile result falsifies the predicate. -/
theorem dropWhile_head_false (p : Char → Bool) :
    ∀ (l : List Char) (d : Char) (ds : List Char), l.dropWhile p = d :: ds → p d = false := by
  intro l
  induction l with
  | nil => intro d ds h; cases h
  | cons a t ih =>
    intro d ds h
    by_cases ha : p a
    · rw [List.dropWhile_cons, if_pos ha] at h
      exact ih d ds h
    · rw [List.dropWhile_cons, if_neg (by simp [ha])] at h
      cases h
      simpa using ha

/-- The claim's wording of whitespace normalization agrees with the two
regex passes: collapsing every whitespace run to a single space and
trimming both ends is exactly joining the whitespace-separated words with
single spaces. -/
theorem normalize_eq_words (l : List Char) :
    pyStrip (collapseWs l false) = joinWords (splitWs l) := by
  suffices H : ∀ (n : Nat) (l : List Char), l.length ≤ n →
      pyStrip (collapseWs l false) = joinWords (splitWs l) from H l.length l le_rfl
  intro n
  induction n with
  | zero =>
    intro l hl
    have : l = [] := List.length_eq_zero.mp (Nat.le_zero.mp hl)
    subst this
    rfl
  | succ n ih =>
    intro l hl
    cases l with
    | nil => rfl
    | cons c cs =>
      by_cases hc : isPySpace c
      · rw [collapseWs_cons_space c cs hc]
        have hps : pyStrip (' ' :: collapseWs (cs.dropWhile isPySpace) false)
            = pyStrip (collapseWs (cs.dropWhile isPySpace) false) := rfl
        rw [hps]
        have hlen : (cs.dropWhile isPySpace).length ≤ n :=
          le_trans (List.dropWhile_sublist _).length_le (Nat.le_of_succ_le_succ hl)
        rw [ih _ hlen, splitWs_dropWhile cs]
        congr 1
        show splitWs cs = splitWsAux (c :: cs) []
        simp [splitWs, splitWsAux, hc]
      · -- peel the leading word
        have hwr : (c :: cs).takeWhile (fun x => !isPySpace x)
            ++ (c :: cs).dropWhile (fun x => !isPySpace x) = c :: cs :=
          List.takeWhile_append_dropWhile _ _
        obtain ⟨wt, hwdef⟩ : ∃ wt, (c :: cs).takeWhile (fun x => !isPySpace x) = c :: wt := by
          refine ⟨cs.takeWhile (fun x => !isPySpace x), ?_⟩
          rw [List.takeWhile_cons, if_pos (by simp [hc])]
        have hwall : ∀ x ∈ (c :: cs).takeWhile (fun x => !isPySpace x), isPySpace x = false := by
          intro x hx
          have := List.mem_takeWhile_imp hx
          simpa using this
        have hrhead : ∀ d ds, (c :: cs).dropWhile (fun x => !isPySpace x) = d :: ds →
            isPySpace d = true := by
          intro d ds h
          have := dropWhile_head_false _ _ _ _ h
          simpa using this
        have hlenr : ((c :: cs).dropWhile (fun x => !isPySpace x)).length ≤ n := by
          have hsum : ((c :: cs).takeWhile (fun x => !isPySpace x)).length
              + ((c :: cs).dropWhile (fun x => !isPySpace x)).length = (c :: cs).length := by
            rw [← List.length_append, hwr]
          have hwpos : 1 ≤ ((c :: cs).takeWhile (fun x => !isPySpace x)).length := by
            rw [hwdef]; simp
          have hcl : (c :: cs).length ≤ n + 1 := hl
          omega
        have hcol : collapseWs (c :: cs) false
            = (c :: cs).takeWhile (fun x => !isPySpace x)
              ++ collapseWs ((c :: cs).dropWhile (fun x => !isPySpace x)) false := by
          conv_lhs => rw [← hwr]
          exact collapseWs_nonspace_word _ _ hwall
        have hsplit : splitWs (c :: cs)
            = (c :: cs).takeWhile (fun x => !isPySpace x)
              :: splitWs (((c :: cs).dropWhile (fun x => !isPySpace x)).dropWhile isPySpace) := by
          conv_lhs => rw [show splitWs (c :: cs) = splitWsAux (c :: cs) [] from rfl, ← hwr]
          rw [splitWsAux_nonspace_word _ _ _ hwall, List.append_nil]
          cases hrc : (c :: cs).dropWhile (fun x => !isPySpace x) with
          | nil =>
            simp only [splitWsAux, List.isEmpty_iff, List.reverse_eq_nil_iff, List.dropWhile_nil]
            rw [if_neg (by rw [hwdef]; simp), hwdef]
            simp [splitWs, splitWsAux]
          | cons s t =>
            have hs := hrhead s t hrc
            simp only [splitWsAux, hs, if_true, List.isEmpty_iff, List.reverse_eq_nil_iff]
            rw [if_neg (by rw [hwdef]; simp), List.reverse_reverse]
            congr 1
            rw [List.dropWhile_cons, if_pos hs]
            show splitWs t = splitWs (t.dropWhile isPySpace)
            rw [splitWs_dropWhile]
        have hfront : ∀ X : List Char,
            stripFront ((c :: cs).takeWhile (fun x => !isPySpace x) ++ X)
              = (c :: cs).takeWhile (fun x => !isPySpace x) ++ X := by
          intro X
          rw [hwdef, List.cons_append]
          exact stripFront_nonspace_head c _ (by simpa using hc)
        cases hr2 : ((c :: cs).dropWhile (fun x => !isPySpace x)).dropWhile isPySpace with
        | nil =>
          have hcr : collapseWs ((c :: cs).dropWhile (fun x => !isPySpace x)) false = []
              ∨ collapseWs ((c :: cs).dropWhile (fun x => !isPySpace x)) false = [' '] := by
            cases hrc : (c :: cs).dropWhile (fun x => !isPySpace x) with
            | nil => exact Or.inl rfl
            | cons s t =>
              have hs := hrhead s t hrc
              right
              rw [collapseWs_cons_space s t hs]
              have ht : t.dropWhile isPySpace = [] := by
                rw [hrc, List.dropWhile_cons, if_pos hs] at hr2
                exact hr2
              rw [ht]
              rfl
          rw [hcol]
          unfold pyStrip
          rw [hfront]
          rw [hsplit, hr2]
          have hjw : joinWords [(c :: cs).takeWhile (fun x => !isPySpace x)]
              = (c :: cs).takeWhile (fun x => !isPySpace x) := rfl
          show stripBack _ = joinWords _
          rcases hcr with hcr | hcr <;> rw [hcr]
          · rw [List.append_nil, stripBack_nonspace _ hwall]
            exact hjw.symm
          · rw [stripBack_append_space, stripBack_nonspace _ hwall]
            exact hjw.symm
        | cons d ds =>
          have hd : isPySpace d = false := dropWhile_head_false _ _ _ _ hr2
          obtain ⟨s, t, hrc⟩ : ∃ s t, (c :: cs).dropWhile (fun x => !isPySpace x) = s :: t := by
            cases hrc : (c :: cs).dropWhile (fun x => !isPySpace x) with
            | nil => rw [hrc] at hr2; cases hr2
            | cons s t => exact ⟨s, t, rfl⟩
          have hs : isPySpace s = true := hrhead s t hrc
          have hdt : t.dropWhile isPySpace = d :: ds := by
            rw [hrc, List.dropWhile_cons, if_pos hs] at hr2
            exact hr2
          have hcr : collapseWs ((c :: cs).dropWhile (fun x => !isPySpace x)) false
              = ' ' :: collapseWs (d :: ds) false := by
            rw [hrc, collapseWs_cons_space s t hs, hdt]
          have hlen2 : (d :: ds).length ≤ n := by
            have h1 : (t.dropWhile isPySpace).length ≤ t.length :=
              (List.dropWhile_sublist _).length_le
            rw [hdt] at h1
            have h2 : (s :: t).length ≤ n := by rw [← hrc]; exact hlenr
            simp only [List.length_cons] at h1 h2 ⊢
            omega
          have hIH := ih (d :: ds) hlen2
          have hYhead : collapseWs (d :: ds) false = d :: collapseWs ds false := by
            simp [collapseWs, hd]
          have hsbY : stripBack (collapseWs (d :: ds) false) = joinWords (splitWs (d :: ds)) := by
            unfold pyStrip at hIH
            rw [hYhead] at hIH ⊢
            rwa [stripFront_nonspace_head d _ hd] at hIH
          have hJne : joinWords (splitWs (d :: ds)) ≠ [] := by
            show joinWords (splitWsAux (d :: ds) []) ≠ []
            simp only [splitWsAux, hd, if_false, Bool.false_eq_true]
            exact joinWords_splitWsAux_ne_nil ds [d] (by simp)
          rw [hcol, hcr]
          unfold pyStrip
          rw [hfront]
          have hassoc : (c :: cs).takeWhile (fun x => !isPySpace x)
              ++ ' ' :: collapseWs (d :: ds) false
              = ((c :: cs).takeWhile (fun x => !isPySpace x) ++ [' '])
                ++ collapseWs (d :: ds) false := by simp
          rw [hassoc, stripBack_append_of_ne_nil _ _ (by rw [hsbY]; exact hJne), hsbY]
          rw [hsplit, hr2]
          obtain ⟨x, xs, hx⟩ : ∃ x xs, splitWs (d :: ds) = x :: xs := by
            cases hxx : splitWs (d :: ds) with
            | nil => rw [hxx] at hJne; exact absurd rfl hJne
            | cons x xs => exact ⟨x, xs, rfl⟩
          rw [hx, joinWords_cons_cons]
          simp

/-- C5.  sanitize_prompt_text is, for every input string, exactly the
claim's algorithm — collapse every whitespace run to one space, trim the
ends (equivalently: join the whitespace-separated words with single
spaces), then delete every forbidden character — and on the claim's
example it yields "vibe coding script". -/
theorem C5_sanitize_refines_spec :
    (∀ text : String, sanitize_prompt_text text = sanitizeSpec text) ∧
    sanitize_prompt_text "  vibe   coding <script>  " = "vibe coding script" := by
  constructor
  · intro text
    unfold sanitize_prompt_text sanitizeSpec
    by_cases h : text = ""
    · rw [if_pos h, if_pos h]
    · rw [if_neg h, if_neg h, normalize_eq_words]
  · decide

end VibeBackend
